import Mathlib

/-!
Shallow embedding of the conversation core of the obsidian-ollama-plugin
repository:

* `src/ollamaClient.ts` — the lazily cached chat-completion client handle;
* the settings-store methods of `src/main.ts` (`getChatHistory`,
  `setChatHistory`, `getSummaryHistory`, `setSummaryHistory`);
* the conversation controller of `src/chatView.ts` (`sendMessage`,
  `generateAssistantResponse`, `resetConversation`, `onActiveFileChanged`,
  `loadConversationHistory`).

Stateful TypeScript code becomes explicit state passing on record types.
The JavaScript event-loop effects that matter to the verified properties —
appending to the in-memory message array, writing the persisted settings
object, showing a notice, and flipping the `isSending` flag — are modelled
as fields of the result records.  DOM rendering, scrolling and logging have
no bearing on any claim and are not part of the state.

JavaScript string primitives used by the source (`String.prototype.trim`,
the case-insensitive regular-expression test `/abort/i.test`) are embedded
as structurally recursive functions over `List Char` so that every
definition evaluates by `decide`.
-/

namespace OllamaPlugin

/-- Embedding of `String.prototype.trim`: drop leading and trailing
whitespace. -/
def jsTrim (s : String) : String :=
  String.mk (((s.data.dropWhile Char.isWhitespace).reverse.dropWhile
    Char.isWhitespace).reverse)

/-- Helper for substring search: does the pattern occur at the head of the
text? -/
def startsWithChars : List Char → List Char → Bool
  | [], _ => true
  | _ :: _, [] => false
  | p :: ps, c :: cs => p == c && startsWithChars ps cs

/-- Helper for substring search: does the pattern occur anywhere in the
text? -/
def containsChars (pat : List Char) : List Char → Bool
  | [] => startsWithChars pat []
  | c :: cs => startsWithChars pat (c :: cs) || containsChars pat cs

/-- Embedding of the regular-expression test `/abort/i.test(message)` from
`src/chatView.ts` line 370: the text contains the letters "abort"
case-insensitively. -/
def containsAbortCI (s : String) : Bool :=
  containsChars "abort".data (s.data.map Char.toLower)

/-- `ConversationMessageType` from `src/chatView.ts` (the persisted maps in
`src/main.ts` additionally allow a `summary` tag). -/
inductive MsgType where
  | request
  | response
  | summary
deriving DecidableEq, Repr

/-- One conversation entry: the `{ type, content, model? }` objects stored
in `this.messages` of `src/chatView.ts` and in the persisted
`settings.chatHistory` of `src/main.ts`. -/
structure Message where
  type : MsgType
  content : String
  model : Option String
deriving DecidableEq, Repr

/-- One outgoing `ChatCompletionMessageParam`: a role/content pair. -/
structure ChatMessage where
  role : String
  content : String
deriving DecidableEq, Repr

/-- `OLLAMA_BASE_URL` from `src/ollamaClient.ts`. -/
def OLLAMA_BASE_URL : String := "http://localhost:11434/v1/"

/-- `OLLAMA_API_KEY` from `src/ollamaClient.ts`. -/
def OLLAMA_API_KEY : String := "ollama"

/-- `DEFAULT_OLLAMA_MODEL` from `src/ollamaClient.ts`. -/
def DEFAULT_OLLAMA_MODEL : String := "gpt-oss:20b"

/-- `getDefaultModel` from `src/ollamaClient.ts`. -/
def getDefaultModel : String := DEFAULT_OLLAMA_MODEL

/-- The configuration captured by the `new OpenAI({...})` construction in
`src/ollamaClient.ts`. -/
structure OpenAIClient where
  baseURL : String
  apiKey : String
  dangerouslyAllowBrowser : Bool
deriving DecidableEq, Repr

/-- `OllamaClientOptions` from `src/ollamaClient.ts`: both fields
optional. -/
structure ClientOptions where
  baseURL : Option String
  apiKey : Option String
deriving DecidableEq, Repr

/-- `getOllamaClient` from `src/ollamaClient.ts`.  The module-level
`cachedClient` variable is passed and returned explicitly; the function
returns the handle it hands to the caller together with the updated
cache. -/
def getOllamaClient (cachedClient : Option OpenAIClient)
    (options : Option ClientOptions) : OpenAIClient × Option OpenAIClient :=
  match cachedClient with
  | some c => (c, some c)
  | none =>
    let c : OpenAIClient :=
      { baseURL := (options.bind ClientOptions.baseURL).getD OLLAMA_BASE_URL
        apiKey := (options.bind ClientOptions.apiKey).getD OLLAMA_API_KEY
        dangerouslyAllowBrowser := true }
    (c, some c)

/-- Result of a whole sequence of `getOllamaClient` calls, threading the
module-level cache through: the list of handles returned to each caller. -/
def ollamaCallResults (cachedClient : Option OpenAIClient) :
    List (Option ClientOptions) → List OpenAIClient
  | [] => []
  | o :: rest =>
    let r := getOllamaClient cachedClient o
    r.1 :: ollamaCallResults r.2 rest

/-- Lookup in the plain-object maps (`settings.chatHistory[filePath]`),
modelled as association lists. -/
def lookupMap (fp : String) : List (String × List Message) → Option (List Message)
  | [] => none
  | (k, v) :: rest => if k = fp then some v else lookupMap fp rest

/-- Keyed assignment `settings.chatHistory[filePath] = messages` on the
association-list model. -/
def insertMap (fp : String) (v : List Message) :
    List (String × List Message) → List (String × List Message)
  | [] => [(fp, v)]
  | (k, w) :: rest =>
    if k = fp then (fp, v) :: rest else (k, w) :: insertMap fp v rest

/-- `MyPluginSettings` plus the persistence counter: `saveCount` counts the
`saveSettings` (`saveData`) flushes, so an unchanged `saveCount` certifies
that no persistence write happened. -/
structure PluginState where
  defaultModel : String
  chatHistory : List (String × List Message)
  summaryHistory : List (String × List Message)
  enableRecommendations : Bool
  saveCount : Nat
deriving DecidableEq, Repr

/-- JavaScript truthiness of the optional file path used in the guards
`if (!filePath)` and `if (this.currentFilePath)`: `undefined`/`null` and
the empty string are falsy. -/
def pathTruthy : Option String → Bool
  | none => false
  | some s => !(s == "")

/-- `getChatHistory` from `src/main.ts`:
`if (!filePath) return []; return this.settings.chatHistory[filePath] ?? []`. -/
def getChatHistory (p : PluginState) (filePath : Option String) : List Message :=
  match filePath with
  | none => []
  | some fp => if fp == "" then [] else (lookupMap fp p.chatHistory).getD []

/-- `getSummaryHistory` from `src/main.ts`. -/
def getSummaryHistory (p : PluginState) (filePath : Option String) : List Message :=
  match filePath with
  | none => []
  | some fp => if fp == "" then [] else (lookupMap fp p.summaryHistory).getD []

/-- `setChatHistory` from `src/main.ts`: no-op on a falsy path, otherwise
assign the key and flush the settings. -/
def setChatHistory (p : PluginState) (messages : List Message)
    (filePath : Option String) : PluginState :=
  match filePath with
  | none => p
  | some fp =>
    if fp == "" then p
    else { p with chatHistory := insertMap fp messages p.chatHistory
                  saveCount := p.saveCount + 1 }

/-- `setSummaryHistory` from `src/main.ts`. -/
def setSummaryHistory (p : PluginState) (summaries : List Message)
    (filePath : Option String) : PluginState :=
  match filePath with
  | none => p
  | some fp =>
    if fp == "" then p
    else { p with summaryHistory := insertMap fp summaries p.summaryHistory
                  saveCount := p.saveCount + 1 }

/-- The conversation-controller state of `OllamaChatView` in
`src/chatView.ts`: the in-memory log, the `isSending` flag (`Sending` when
true, `Idle` when false), the current file path and the suggestion
anchor. -/
structure ViewState where
  messages : List Message
  isSending : Bool
  currentFilePath : Option String
  suggestionAnchorIndex : Nat
deriving DecidableEq, Repr

/-- The fixed system instruction from `generateAssistantResponse` in
`src/chatView.ts`. -/
def systemPromptText : String :=
  "You are an expert article analyst. Given an article, you analyze its structure, key arguments, evidence, tone, and audience; identify gaps, contradictions, and assumptions; propose fresh perspectives and reframings; suggest improvements; and produce helpful artifacts (outline, abstract, title options, tags, key takeaways, questions, and next steps). Prefer concise, well-structured responses."

/-- The `<current_file>` wrapper built around the active file in
`generateAssistantResponse` of `src/chatView.ts`. -/
def wrapFileContents (path contents : String) : String :=
  String.intercalate "\n"
    ["<current_file>", "<name>" ++ path ++ "</name>", "<content>",
     "```markdown", contents, "```", "</content>", "</current_file>"]

/-- The role mapping of `fullHistory` in `src/chatView.ts`:
`m.type === 'request' ? user : assistant`. -/
def toParam (m : Message) : ChatMessage :=
  if m.type = MsgType.request then { role := "user", content := m.content }
  else { role := "assistant", content := m.content }

/-- The `fullHistory` computation of `generateAssistantResponse` in
`src/chatView.ts`: filter with the element index, excluding a final
response entry whose content is empty, then map to role/content pairs. -/
def fullHistory (msgs : List Message) : List ChatMessage :=
  (msgs.enum.filter (fun q =>
    !(q.2.type == MsgType.response && q.2.content == "" &&
      q.1 == msgs.length - 1))).map (fun q => toParam q.2)

/-- The `messagesToSend` construction of `generateAssistantResponse` in
`src/chatView.ts`: system prompt, then the wrapped active file (when one is
active and readable), then `fullHistory`.  The active file is `none` when
no file is active or reading it failed. -/
def buildMessagesToSend (activeFile : Option (String × String))
    (msgs : List Message) : List ChatMessage :=
  let base : List ChatMessage := [{ role := "system", content := systemPromptText }]
  let withFile :=
    match activeFile with
    | some pc => base ++ [{ role := "user", content := wrapFileContents pc.1 pc.2 }]
    | none => base
  withFile ++ fullHistory msgs

/-- Spec-side predicate: a Response entry with empty text (the trailing
placeholder the spec says is excluded). -/
def isEmptyResponse (m : Message) : Bool :=
  m.type == MsgType.response && m.content == ""

/-- Spec-side reformulation of the claim wording: the prior log entries
"excluding a trailing Response entry whose text is empty". -/
def specDropTrailingEmpty (msgs : List Message) : List Message :=
  match msgs.getLast? with
  | some m => if isEmptyResponse m then msgs.dropLast else msgs
  | none => msgs

/-- Spec-side reformulation of the whole outgoing list as the claim words
it: one fixed system instruction, one synthesized user message wrapping the
active document when present, then every prior log entry in order with the
trailing empty placeholder dropped. -/
def specOutgoingList (activeFile : Option (String × String))
    (msgs : List Message) : List ChatMessage :=
  [{ role := "system", content := systemPromptText }]
  ++ (match activeFile with
      | some pc => [{ role := "user", content := wrapFileContents pc.1 pc.2 }]
      | none => ([] : List ChatMessage))
  ++ (specDropTrailingEmpty msgs).map toParam

/-- The shape of a JavaScript error as inspected by the catch handler of
`generateAssistantResponse`: its `name` and `message`. -/
structure JsError where
  name : String
  message : String
deriving DecidableEq, Repr

/-- The cancellation test of the catch handler in `src/chatView.ts`:
`name === 'AbortError' || /abort/i.test(message)`. -/
def wasAborted (e : JsError) : Bool :=
  e.name == "AbortError" || containsAbortCI e.message

/-- Outcome of the streaming request, as observed by the `for await` loop:
either the stream completes after yielding `deltas`, or it raises `err`
after yielding `seenDeltas`.  An abort signalled mid-stream surfaces as the
`failed` case with a cancellation-specific error. -/
inductive StreamOutcome where
  | completed (deltas : List String)
  | failed (seenDeltas : List String) (err : JsError)
deriving DecidableEq, Repr

/-- The accumulator loop of `generateAssistantResponse`: starting from the
empty placeholder content, `if (!delta) continue; responseMsg.content += delta`. -/
def accumDeltas (deltas : List String) : String :=
  deltas.foldl (fun acc d => if d = "" then acc else acc ++ d) ""

/-- Spec-side reformulation: "the concatenation of all received non-empty
deltas in arrival order". -/
def specConcat (deltas : List String) : String :=
  (deltas.filter (fun d => !(d == ""))).foldr (fun a b => a ++ b) ""

/-- The model selection `this.plugin.settings.defaultModel || getDefaultModel()`. -/
def effectiveModel (p : PluginState) : String :=
  if p.defaultModel = "" then DEFAULT_OLLAMA_MODEL else p.defaultModel

/-- Everything observable after a turn: the controller state, the settings
store, how many user-visible notices were raised, and the message list that
was sent to the backend. -/
structure GenResult where
  view : ViewState
  plugin : PluginState
  noticeCount : Nat
  sent : List ChatMessage
deriving DecidableEq, Repr

/-- `generateAssistantResponse` from `src/chatView.ts`.  It pushes the
empty Response placeholder, builds `messagesToSend`, then consumes the
stream.  On completion the accumulated content is persisted (when the
current path is truthy); on failure nothing is persisted and a notice is
shown unless the error is recognised as a cancellation.  The `finally`
block returns the controller to Idle in every case. -/
def generateAssistantResponse (v : ViewState) (p : PluginState)
    (activeFile : Option (String × String)) (outcome : StreamOutcome) : GenResult :=
  let model := effectiveModel p
  let withPlaceholder := v.messages ++
    [{ type := MsgType.response, content := "", model := some model }]
  let sent := buildMessagesToSend activeFile withPlaceholder
  match outcome with
  | StreamOutcome.completed deltas =>
    let final := v.messages ++
      [{ type := MsgType.response, content := accumDeltas deltas, model := some model }]
    let p' := if pathTruthy v.currentFilePath
      then setChatHistory p final v.currentFilePath else p
    { view := { v with messages := final, isSending := false }
      plugin := p'
      noticeCount := 0
      sent := sent }
  | StreamOutcome.failed seenDeltas err =>
    let final := v.messages ++
      [{ type := MsgType.response, content := accumDeltas seenDeltas, model := some model }]
    { view := { v with messages := final, isSending := false }
      plugin := p
      noticeCount := if wasAborted err then 0 else 1
      sent := sent }

/-- `sendMessage` from `src/chatView.ts`: trim the input; reject when the
trimmed text is empty or a turn is already in flight; otherwise append the
Request entry, persist the log (when the current path is truthy) and run
`generateAssistantResponse`. -/
def sendMessage (v : ViewState) (p : PluginState) (input : String)
    (activeFile : Option (String × String)) (outcome : StreamOutcome) : GenResult :=
  let text := jsTrim input
  if text == "" || v.isSending then
    { view := v, plugin := p, noticeCount := 0, sent := [] }
  else
    let msgs := v.messages ++ [{ type := MsgType.request, content := text, model := none }]
    let p' := if pathTruthy v.currentFilePath
      then setChatHistory p msgs v.currentFilePath else p
    generateAssistantResponse { v with messages := msgs } p' activeFile outcome

/-- `resetConversation` from `src/chatView.ts`: abort any in-flight
request, return to Idle, clear the in-memory log and the suggestion anchor,
and persist the empty log when the current path is truthy. -/
def resetConversation (v : ViewState) (p : PluginState) : ViewState × PluginState :=
  let v' := { v with isSending := false, messages := [], suggestionAnchorIndex := 0 }
  let p' := if pathTruthy v.currentFilePath
    then setChatHistory p ([] : List Message) v.currentFilePath else p
  (v', p')

/-- `loadConversationHistory` from `src/chatView.ts`: read the persisted
log for the current path (empty when the path is falsy, absent or the
stored list is empty) and replace the in-memory log and suggestion anchor
with it. -/
def loadConversationHistory (v : ViewState) (p : PluginState) : ViewState :=
  let msgs :=
    if pathTruthy v.currentFilePath then
      let persisted := getChatHistory p v.currentFilePath
      if 0 < persisted.length then persisted else []
    else []
  { v with messages := msgs, suggestionAnchorIndex := msgs.length }

/-- The normalisation `activeFile?.path || null` at the top of
`onActiveFileChanged`: an absent file or an empty path both become null. -/
def normalizePath : Option String → Option String
  | none => none
  | some s => if s == "" then none else some s

/-- `onActiveFileChanged` from `src/chatView.ts`: when the (normalised)
incoming path differs from the current one, persist the outgoing log if it
is non-empty and the outgoing path truthy, switch the current path, and
load the incoming log. -/
def onActiveFileChanged (v : ViewState) (p : PluginState)
    (activePath : Option String) : ViewState × PluginState :=
  let newFilePath := normalizePath activePath
  if v.currentFilePath = newFilePath then (v, p)
  else
    let p' := if pathTruthy v.currentFilePath && decide (0 < v.messages.length)
      then setChatHistory p v.messages v.currentFilePath else p
    let v' := loadConversationHistory { v with currentFilePath := newFilePath } p'
    (v', p')

/-- A concrete conversation entry used by the witness theorems. -/
def sampleMessage : Message :=
  { type := MsgType.request, content := "hi", model := none }

/-- A concrete settings store used by the witness theorems. -/
def samplePlugin : PluginState :=
  { defaultModel := "llama3", chatHistory := [], summaryHistory := []
    enableRecommendations := false, saveCount := 0 }

/-- A concrete Idle controller state used by the witness theorems. -/
def sampleViewA : ViewState :=
  { messages := [sampleMessage], isSending := false
    currentFilePath := some "a.md", suggestionAnchorIndex := 1 }

/-- A concrete Sending controller state used by the witness theorems. -/
def sampleViewSending : ViewState :=
  { messages := [sampleMessage], isSending := true
    currentFilePath := some "a.md", suggestionAnchorIndex := 1 }

/-- The error the aborted streaming request raises inside the interrupted
generation once `currentAbortController.abort()` has fired. -/
def abortError : JsError :=
  { name := "AbortError", message := "Request was aborted." }

/-- Observable outcome of a cancellation: the controller state, the
settings store and the number of user-visible notices raised. -/
structure CancelResult where
  view : ViewState
  plugin : PluginState
  noticeCount : Nat
deriving DecidableEq, Repr

/-- The cancellation path the program actually wires up.  The only call
sites of `currentAbortController.abort()` in `src/chatView.ts` are
`resetConversation` and `clearAllHistory`; this embeds the former
interleaved with an in-flight generation.  `resetConversation` runs
synchronously: it fires the abort signal, returns the controller to Idle,
replaces the in-memory log with the empty array, resets the anchor, and
persists the empty log for the truthy current path.  On the next event-loop
turn the interrupted generation observes `abortError`; its catch handler
recognises the cancellation (so no notice), its own completion-persist is
skipped, and its finally block sets the sending flag to false again.  The
interrupted generation mutates no other state: its `responseMsg` lives in
the array the reset already replaced. -/
def cancelViaReset (v : ViewState) (p : PluginState) : CancelResult :=
  let r := resetConversation v p
  { view := { r.1 with isSending := false }
    plugin := r.2
    noticeCount := if wasAborted abortError then 0 else 1 }

/-- A concrete mid-stream controller state: the Request entry followed by
the partially streamed Response entry holding "par", with the turn still
in flight. -/
def sampleViewMid : ViewState :=
  { messages := [sampleMessage,
      { type := MsgType.response, content := accumDeltas ["par"]
        model := some (effectiveModel samplePlugin) }]
    isSending := true
    currentFilePath := some "a.md", suggestionAnchorIndex := 1 }

/-! ## Helper lemmas -/

/-- Appending a single element makes it the last entry. -/
theorem lastOfAppend {α : Type} (l : List α) (a : α) : (l ++ [a]).getLast? = some a := by
  simp [List.getLast?_concat]

/-- The accumulator loop, started from any prefix, appends exactly the
concatenation of the non-empty deltas. -/
theorem accumDeltas_foldl (l : List String) (acc : String) :
    l.foldl (fun a d => if d = "" then a else a ++ d) acc = acc ++ specConcat l := by
  induction l generalizing acc with
  | nil => simp [specConcat, String.append_empty]
  | cons d t ih =>
    simp only [List.foldl_cons]
    by_cases hd : d = ""
    · subst hd
      rw [if_pos rfl, ih]
      have hs : specConcat ("" :: t) = specConcat t := by
        simp [specConcat, List.filter_cons]
      rw [hs]
    · rw [if_neg hd, ih, String.append_assoc]
      have hs : specConcat (d :: t) = d ++ specConcat t := by
        simp [specConcat, List.filter_cons, hd]
      rw [hs]

/-- The streaming accumulator equals the concatenation of the non-empty
deltas in arrival order. -/
theorem accumDeltas_eq_specConcat (l : List String) : accumDeltas l = specConcat l := by
  unfold accumDeltas
  rw [accumDeltas_foldl, String.empty_append]

/-- Entries strictly before the excluded index all pass the
`fullHistory` filter. -/
theorem enumFrom_filter_all (l : List Message) (j : Nat) :
    ∀ k : Nat, k + l.length ≤ j →
    (List.enumFrom k l).filter (fun q =>
      !(q.2.type == MsgType.response && q.2.content == "" && q.1 == j))
    = List.enumFrom k l := by
  induction l with
  | nil => intro k _; rfl
  | cons m t ih =>
    intro k hk
    have hlt : k < j := by simp [List.length_cons] at hk; omega
    have hkj : (k == j) = false := by simp [Nat.ne_of_lt hlt]
    simp only [List.enumFrom, List.filter_cons, hkj, Bool.and_false, Bool.not_false, if_true]
    rw [ih (k + 1) (by simp [List.length_cons] at hk; omega)]

/-- Mapping the element part of an enumeration recovers a plain map. -/
theorem map_toParam_enumFrom (l : List Message) :
    ∀ k : Nat, (List.enumFrom k l).map (fun q => toParam q.2) = l.map toParam := by
  induction l with
  | nil => intro k; rfl
  | cons m t ih => intro k; simp [List.enumFrom, ih]

/-- The index-based filter of `fullHistory` coincides with dropping a
trailing empty Response entry. -/
theorem fullHistory_eq_spec (msgs : List Message) :
    fullHistory msgs = (specDropTrailingEmpty msgs).map toParam := by
  induction msgs using List.reverseRecOn with
  | nil => rfl
  | append_singleton init m _ =>
    unfold fullHistory specDropTrailingEmpty
    have hlen : (init ++ [m]).length - 1 = init.length := by
      simp [List.length_append]
    have henum : (init ++ [m]).enum
        = List.enumFrom 0 init ++ List.enumFrom (0 + init.length) [m] := by
      rw [show (init ++ [m]).enum = List.enumFrom 0 (init ++ [m]) from rfl,
        List.enumFrom_append]
    rw [hlen, henum, List.filter_append, enumFrom_filter_all init init.length 0 (by omega),
      lastOfAppend]
    have hsingle : List.enumFrom (0 + init.length) [m] = [(init.length, m)] := by
      simp [List.enumFrom]
    rw [hsingle]
    cases hm : isEmptyResponse m with
    | true =>
      have hdrop : List.filter (fun q =>
          !(q.2.type == MsgType.response && q.2.content == "" && q.1 == init.length))
          [(init.length, m)] = [] := by
        simp only [List.filter_cons, List.filter_nil, Nat.beq_refl, Bool.and_true]
        have : (m.type == MsgType.response && m.content == "") = true := hm
        simp [this]
      rw [hdrop]
      simp [hm, List.dropLast_concat, map_toParam_enumFrom]
    | false =>
      have hkeep : List.filter (fun q =>
          !(q.2.type == MsgType.response && q.2.content == "" && q.1 == init.length))
          [(init.length, m)] = [(init.length, m)] := by
        simp only [List.filter_cons, List.filter_nil, Nat.beq_refl, Bool.and_true]
        have : (m.type == MsgType.response && m.content == "") = false := hm
        simp [this]
      rw [hkeep]
      simp [hm, map_toParam_enumFrom]

/-- Looking up the key just assigned returns the assigned value. -/
theorem lookupMap_insertMap_self (fp : String) (v : List Message)
    (h : List (String × List Message)) :
    lookupMap fp (insertMap fp v h) = some v := by
  induction h with
  | nil => simp [insertMap, lookupMap]
  | cons kv rest ih =>
    obtain ⟨k, w⟩ := kv
    by_cases hk : k = fp
    · subst hk; simp [insertMap, lookupMap]
    · simp [insertMap, lookupMap, hk, ih]

/-- Assigning one key leaves every other key unchanged. -/
theorem lookupMap_insertMap_ne (fp fp2 : String) (hne : fp ≠ fp2)
    (v : List Message) (h : List (String × List Message)) :
    lookupMap fp (insertMap fp2 v h) = lookupMap fp h := by
  have hne2 : ¬(fp2 = fp) := fun hh => hne hh.symm
  induction h with
  | nil => simp [insertMap, lookupMap, hne2]
  | cons kv rest ih =>
    obtain ⟨k, w⟩ := kv
    by_cases hk : k = fp2
    · subst hk
      simp [insertMap, lookupMap, hne2]
    · by_cases hkf : k = fp
      · subst hkf; simp [insertMap, lookupMap, hk]
      · simp [insertMap, lookupMap, hk, hkf, ih]

/-- Persisting a chat log never changes the configured default model. -/
theorem effectiveModel_setChatHistory (p : PluginState) (m : List Message)
    (f : Option String) : effectiveModel (setChatHistory p m f) = effectiveModel p := by
  unfold setChatHistory effectiveModel
  cases f with
  | none => rfl
  | some fp => by_cases hfp : fp == "" <;> simp [hfp]

/-- The guard `persisted.length > 0 ? persisted : []` is the identity. -/
theorem listIfPos {α : Type} (l : List α) : (if 0 < l.length then l else []) = l := by
  cases l <;> simp

/-- Unfolding `getChatHistory` at a truthy path. -/
theorem getChatHistory_some (p : PluginState) (fp : String) (h : fp ≠ "") :
    getChatHistory p (some fp) = (lookupMap fp p.chatHistory).getD [] := by
  simp [getChatHistory, h]

/-- Unfolding `setChatHistory` at a truthy path. -/
theorem setChatHistory_some (p : PluginState) (m : List Message) (fp : String)
    (h : fp ≠ "") :
    setChatHistory p m (some fp)
      = { p with chatHistory := insertMap fp m p.chatHistory
                 saveCount := p.saveCount + 1 } := by
  simp [setChatHistory, h]

/-- With a cached handle present, every later call returns that handle. -/
theorem ollamaCallResults_cached (c : OpenAIClient)
    (rest : List (Option ClientOptions)) :
    ollamaCallResults (some c) rest = List.replicate rest.length c := by
  induction rest with
  | nil => rfl
  | cons o t ih => simp [ollamaCallResults, getOllamaClient, ih, List.replicate]

/-! ## Claim theorems -/

/-- C1: for every streamed sequence of token deltas with no interleaved
cancellation, the final Response entry text equals the concatenation of all
received non-empty deltas in arrival order; in particular the tokens
"Hel", "lo", "!" yield the final text "Hello!". -/
theorem c1_streamed_text_is_delta_concat (v : ViewState) (p : PluginState)
    (activeFile : Option (String × String)) (deltas : List String) :
    ((generateAssistantResponse v p activeFile
        (StreamOutcome.completed deltas)).view.messages).getLast?
      = some { type := MsgType.response, content := specConcat deltas
               model := some (effectiveModel p) }
    ∧ ((generateAssistantResponse v p activeFile
        (StreamOutcome.completed ["Hel", "lo", "!"])).view.messages).getLast?
      = some { type := MsgType.response, content := "Hello!"
               model := some (effectiveModel p) } := by
  constructor
  · unfold generateAssistantResponse
    simp [lastOfAppend, accumDeltas_eq_specConcat]
  · unfold generateAssistantResponse
    simp only [lastOfAppend]
    have : accumDeltas ["Hel", "lo", "!"] = "Hello!" := by decide
    simp [this, lastOfAppend]

/-- C3: submit is a complete no-op — log, controller state and settings
store all unchanged, no notice, nothing sent — whenever the input is empty
after trimming or a turn is already in flight. -/
theorem c3_submit_rejected (v : ViewState) (p : PluginState) (input : String)
    (activeFile : Option (String × String)) (outcome : StreamOutcome)
    (h : jsTrim input = "" ∨ v.isSending = true) :
    sendMessage v p input activeFile outcome
      = { view := v, plugin := p, noticeCount := 0, sent := [] } := by
  unfold sendMessage
  rcases h with h | h <;> simp [h]

/-- Witness for C3 at a concrete Sending state. -/
theorem c3_submit_rejected_witness :
    sendMessage sampleViewSending samplePlugin "hello" none
        (StreamOutcome.completed ["ok"])
      = { view := sampleViewSending, plugin := samplePlugin
          noticeCount := 0, sent := [] } :=
  c3_submit_rejected sampleViewSending samplePlugin "hello" none
    (StreamOutcome.completed ["ok"]) (Or.inr rfl)

/-- C5 counterexample: at a concrete mid-stream state with accumulated
partial text "par", cancelling through the program's actual cancellation
path leaves the partial text nowhere in the log (the log is cleared) and
changes the settings store (a persistence call runs), refuting the claim
that the partial text stays as the last entry with no persistence call. -/
theorem c5_cancel_counterexample :
    ¬ (((cancelViaReset sampleViewMid samplePlugin).view.messages).getLast?
        = some { type := MsgType.response, content := accumDeltas ["par"]
                 model := some (effectiveModel samplePlugin) }
       ∧ (cancelViaReset sampleViewMid samplePlugin).plugin = samplePlugin) := by
  decide

/-- C5 (amended): cancelling mid-stream — reachable only through
`resetConversation`, which is what fires the abort signal — clears the
in-memory log to empty (discarding the accumulated partial response text),
invokes the persistence call exactly once storing the empty log for the
active document, silently absorbs the abort error inside the interrupted
generation (no user-visible notice, and the generation's own persistence
call is skipped), and returns the controller to Idle. -/
theorem c5_cancel_via_reset (v : ViewState) (p : PluginState) (fp : String)
    (h1 : v.currentFilePath = some fp) (h2 : fp ≠ "") :
    (cancelViaReset v p).view.messages = []
    ∧ (cancelViaReset v p).view.isSending = false
    ∧ (cancelViaReset v p).noticeCount = 0
    ∧ lookupMap fp (cancelViaReset v p).plugin.chatHistory = some []
    ∧ (cancelViaReset v p).plugin.saveCount = p.saveCount + 1 := by
  have hp2 : (resetConversation v p).2
      = { p with chatHistory := insertMap fp [] p.chatHistory
                 saveCount := p.saveCount + 1 } := by
    unfold resetConversation
    rw [h1]
    simp [pathTruthy, h2, setChatHistory_some _ _ _ h2]
  have hplug : (cancelViaReset v p).plugin
      = { p with chatHistory := insertMap fp [] p.chatHistory
                 saveCount := p.saveCount + 1 } := hp2
  refine ⟨rfl, rfl, rfl, ?_, ?_⟩
  · rw [hplug]
    exact lookupMap_insertMap_self fp [] p.chatHistory
  · rw [hplug]

/-- Witness for C5 (amended) at the concrete mid-stream state. -/
theorem c5_cancel_via_reset_witness :
    (cancelViaReset sampleViewMid samplePlugin).view.messages = []
    ∧ (cancelViaReset sampleViewMid samplePlugin).view.isSending = false
    ∧ (cancelViaReset sampleViewMid samplePlugin).noticeCount = 0
    ∧ lookupMap "a.md" (cancelViaReset sampleViewMid samplePlugin).plugin.chatHistory
      = some []
    ∧ (cancelViaReset sampleViewMid samplePlugin).plugin.saveCount
      = samplePlugin.saveCount + 1 :=
  c5_cancel_via_reset sampleViewMid samplePlugin "a.md" rfl (by decide)

/-- C8: a failing generation shows a user-visible notice exactly when the
error is not recognised as a cancellation (name `AbortError` or a message
containing "abort" case-insensitively); in both cases the controller
returns to Idle and the log keeps everything accumulated so far, and the
settings store is untouched. -/
theorem c8_failure_notice_iff_not_abort (v : ViewState) (p : PluginState)
    (activeFile : Option (String × String)) (seenDeltas : List String)
    (err : JsError) :
    ((generateAssistantResponse v p activeFile
        (StreamOutcome.failed seenDeltas err)).noticeCount = 1
      ↔ wasAborted err = false)
    ∧ (generateAssistantResponse v p activeFile
        (StreamOutcome.failed seenDeltas err)).view.isSending = false
    ∧ (generateAssistantResponse v p activeFile
        (StreamOutcome.failed seenDeltas err)).view.messages
      = v.messages ++ [{ type := MsgType.response
                         content := accumDeltas seenDeltas
                         model := some (effectiveModel p) }]
    ∧ (generateAssistantResponse v p activeFile
        (StreamOutcome.failed seenDeltas err)).plugin = p := by
  unfold generateAssistantResponse
  cases hw : wasAborted err <;> simp [hw]

/-- C9: the first `getOllamaClient` call constructs a handle bound to the
fixed local address and placeholder credential (or caller-supplied
overrides), and every subsequent call in the process lifetime, whatever its
options argument, returns the identical cached handle. -/
theorem c9_client_singleton (opts : Option ClientOptions)
    (rest : List (Option ClientOptions)) :
    (getOllamaClient none opts).1
      = { baseURL := (opts.bind ClientOptions.baseURL).getD OLLAMA_BASE_URL
          apiKey := (opts.bind ClientOptions.apiKey).getD OLLAMA_API_KEY
          dangerouslyAllowBrowser := true }
    ∧ ollamaCallResults (getOllamaClient none opts).2 rest
      = List.replicate rest.length (getOllamaClient none opts).1 := by
  refine ⟨rfl, ?_⟩
  rw [show (getOllamaClient none opts).2 = some (getOllamaClient none opts).1 from rfl,
    ollamaCallResults_cached]

/-- C10: with an absent document identifier, `getChatHistory` returns the
empty sequence and `setChatHistory` / `setSummaryHistory` leave the
settings state (including the persistence counter) entirely unchanged. -/
theorem c10_absent_path_noop (p : PluginState) (msgs sums : List Message) :
    getChatHistory p none = []
    ∧ setChatHistory p msgs none = p
    ∧ setSummaryHistory p sums none = p :=
  ⟨rfl, rfl, rfl⟩

/-- Unfolding `onActiveFileChanged` when the incoming path is truthy and
differs from the current one. -/
theorem onActiveFileChanged_ne (v : ViewState) (p : PluginState) (path : String)
    (hpath : path ≠ "") (hne : v.currentFilePath ≠ some path) :
    onActiveFileChanged v p (some path)
      = (loadConversationHistory { v with currentFilePath := some path }
          (if pathTruthy v.currentFilePath && decide (0 < v.messages.length)
            then setChatHistory p v.messages v.currentFilePath else p),
         if pathTruthy v.currentFilePath && decide (0 < v.messages.length)
            then setChatHistory p v.messages v.currentFilePath else p) := by
  simp only [onActiveFileChanged]
  have hn : normalizePath (some path) = some path := by simp [normalizePath, hpath]
  rw [hn, if_neg hne]

/-- The in-memory log right after loading a truthy path is exactly the
persisted log for that path. -/
theorem loadConversationHistory_messages (v : ViewState) (p : PluginState)
    (fp : String) (h : v.currentFilePath = some fp) (hfp : fp ≠ "") :
    (loadConversationHistory v p).messages = getChatHistory p (some fp) := by
  simp only [loadConversationHistory, h]
  simp [pathTruthy, hfp, listIfPos]

/-- Loading the history does not move the current path. -/
theorem loadConversationHistory_path (v : ViewState) (p : PluginState) :
    (loadConversationHistory v p).currentFilePath = v.currentFilePath := rfl

/-- C4: the outgoing message list equals one fixed system instruction, then
the synthesized user message wrapping the active document when one is
active, then every prior log entry mapped to the user/assistant roles in
log order, excluding a trailing Response entry whose text is empty. -/
theorem c4_outgoing_message_list (activeFile : Option (String × String))
    (msgs : List Message) :
    buildMessagesToSend activeFile msgs = specOutgoingList activeFile msgs := by
  unfold buildMessagesToSend specOutgoingList
  rw [fullHistory_eq_spec]
  cases activeFile <;> simp

/-- C2: submitting non-empty trimmed text while Idle appends exactly one
Request entry carrying the trimmed text, and that Request entry sits
immediately before the single Response entry of the turn, so it was
appended before any Response entry appeared. -/
theorem c2_submit_appends_one_request (v : ViewState) (p : PluginState)
    (input : String) (activeFile : Option (String × String))
    (outcome : StreamOutcome) (h1 : ¬ jsTrim input = "")
    (h2 : v.isSending = false) :
    ∃ respText : String,
      (sendMessage v p input activeFile outcome).view.messages
        = v.messages
          ++ [{ type := MsgType.request, content := jsTrim input, model := none },
              { type := MsgType.response, content := respText
                model := some (effectiveModel p) }] := by
  have hmodel : ∀ q : PluginState, ∀ ms : List Message,
      effectiveModel (if pathTruthy v.currentFilePath
        then setChatHistory q ms v.currentFilePath else q) = effectiveModel q := by
    intro q ms
    split
    · exact effectiveModel_setChatHistory q ms v.currentFilePath
    · rfl
  unfold sendMessage
  simp only [h2, Bool.or_false]
  rw [if_neg (by simp [h1])]
  cases outcome with
  | completed deltas =>
    refine ⟨accumDeltas deltas, ?_⟩
    unfold generateAssistantResponse
    simp [hmodel, List.append_assoc]
  | failed seenDeltas err =>
    refine ⟨accumDeltas seenDeltas, ?_⟩
    unfold generateAssistantResponse
    simp [hmodel, List.append_assoc]

/-- Witness for C2 at a concrete Idle state with input " hello ". -/
theorem c2_submit_appends_one_request_witness :
    ∃ respText : String,
      (sendMessage sampleViewA samplePlugin " hello " none
          (StreamOutcome.completed ["ok"])).view.messages
        = sampleViewA.messages
          ++ [{ type := MsgType.request, content := jsTrim " hello ", model := none },
              { type := MsgType.response, content := respText
                model := some (effectiveModel samplePlugin) }] :=
  c2_submit_appends_one_request sampleViewA samplePlugin " hello " none
    (StreamOutcome.completed ["ok"]) (by decide) rfl

/-- C7: reset clears the in-memory log to empty, persists the empty log for
the active document (one settings flush, the stored entry becomes empty),
and a subsequent `getChatHistory` for the same document returns the empty
sequence. -/
theorem c7_reset_then_empty_history (v : ViewState) (p : PluginState)
    (fp : String) (h1 : v.currentFilePath = some fp) (h2 : fp ≠ "") :
    (resetConversation v p).1.messages = []
    ∧ lookupMap fp (resetConversation v p).2.chatHistory = some []
    ∧ (resetConversation v p).2.saveCount = p.saveCount + 1
    ∧ getChatHistory (resetConversation v p).2 v.currentFilePath = [] := by
  have hp2 : (resetConversation v p).2
      = { p with chatHistory := insertMap fp [] p.chatHistory
                 saveCount := p.saveCount + 1 } := by
    unfold resetConversation
    rw [h1]
    simp [pathTruthy, h2, setChatHistory_some _ _ _ h2]
  refine ⟨rfl, ?_, ?_, ?_⟩
  · rw [hp2]
    exact lookupMap_insertMap_self fp [] p.chatHistory
  · rw [hp2]
  · rw [hp2, h1, getChatHistory_some _ _ h2]
    simp [lookupMap_insertMap_self]

/-- Witness for C7 at a concrete state. -/
theorem c7_reset_then_empty_history_witness :
    (resetConversation sampleViewA samplePlugin).1.messages = []
    ∧ lookupMap "a.md" (resetConversation sampleViewA samplePlugin).2.chatHistory
      = some []
    ∧ (resetConversation sampleViewA samplePlugin).2.saveCount
      = samplePlugin.saveCount + 1
    ∧ getChatHistory (resetConversation sampleViewA samplePlugin).2
        sampleViewA.currentFilePath = [] :=
  c7_reset_then_empty_history sampleViewA samplePlugin "a.md" rfl (by decide)

/-- Persisting under one truthy key does not change the history read back
under a different truthy key. -/
theorem getChatHistory_setChatHistory_ne (q : PluginState) (ms : List Message)
    (A B : String) (hA : A ≠ "") (hB : B ≠ "") (hABne : A ≠ B) :
    getChatHistory (setChatHistory q ms (some B)) (some A)
      = getChatHistory q (some A) := by
  rw [setChatHistory_some _ _ _ hB, getChatHistory_some _ _ hA,
    getChatHistory_some _ _ hA]
  simp [lookupMap_insertMap_ne A B hABne ms]

/-- C6: switching the active document from A to B and back to A restores
exactly the in-memory log that was present for A before the first switch;
moreover the switch to B leaves the persisted log of B untouched and loads
exactly that persisted log as the in-memory log for B, so no entry
originating in one document's log is ever introduced into the other's.
The hypothesis `hinv` is the reachability invariant of the controller: an
empty in-memory log never hides a non-empty persisted log for the current
document. -/
theorem c6_switch_round_trip (v : ViewState) (p : PluginState) (A B : String)
    (hA : A ≠ "") (hB : B ≠ "") (hAB : A ≠ B)
    (hcur : v.currentFilePath = some A)
    (hinv : v.messages = [] → getChatHistory p (some A) = []) :
    (onActiveFileChanged (onActiveFileChanged v p (some B)).1
        (onActiveFileChanged v p (some B)).2 (some A)).1.messages = v.messages
    ∧ (onActiveFileChanged v p (some B)).1.messages = getChatHistory p (some B)
    ∧ getChatHistory (onActiveFileChanged v p (some B)).2 (some B)
        = getChatHistory p (some B) := by
  have hneB : v.currentFilePath ≠ some B := by
    rw [hcur]
    intro hx
    exact hAB (Option.some.inj hx)
  by_cases hm : v.messages = []
  · have hcond : (pathTruthy v.currentFilePath && decide (0 < v.messages.length))
        = false := by
      rw [hm]; simp
    have hstep1 : onActiveFileChanged v p (some B)
        = (loadConversationHistory { v with currentFilePath := some B } p, p) := by
      rw [onActiveFileChanged_ne v p B hB hneB, hcond]
      simp
    have hV1msgs : (loadConversationHistory { v with currentFilePath := some B }
        p).messages = getChatHistory p (some B) :=
      loadConversationHistory_messages _ _ B rfl hB
    have hneA : (loadConversationHistory { v with currentFilePath := some B }
        p).currentFilePath ≠ some A := by
      rw [loadConversationHistory_path]
      intro hx
      exact hAB (Option.some.inj hx).symm
    have hstep2 := onActiveFileChanged_ne
      (loadConversationHistory { v with currentFilePath := some B } p) p A hA hneA
    refine ⟨?_, ?_, ?_⟩
    · rw [hstep1]
      simp only
      rw [hstep2]
      simp only
      rw [loadConversationHistory_messages _ _ A rfl hA]
      have hgoal : ∀ c : Bool,
          getChatHistory (if c then setChatHistory p
            (loadConversationHistory { v with currentFilePath := some B } p).messages
            (loadConversationHistory { v with currentFilePath := some B }
              p).currentFilePath else p) (some A) = v.messages := by
        intro c
        cases c
        · simpa [hm] using hinv hm
        · rw [if_pos rfl, loadConversationHistory_path]
          show getChatHistory (setChatHistory p _ (some B)) (some A) = v.messages
          rw [getChatHistory_setChatHistory_ne p _ A B hA hB hAB]
          simpa [hm] using hinv hm
      exact hgoal _
    · rw [hstep1]
      simpa using hV1msgs
    · rw [hstep1]
  · have hcond : (pathTruthy v.currentFilePath && decide (0 < v.messages.length))
        = true := by
      rw [hcur]
      simp [pathTruthy, hA, List.length_pos, hm]
    have hstep1 : onActiveFileChanged v p (some B)
        = (loadConversationHistory { v with currentFilePath := some B }
            (setChatHistory p v.messages (some A)),
           setChatHistory p v.messages (some A)) := by
      rw [onActiveFileChanged_ne v p B hB hneB, hcond, hcur]
      simp
    have hgetB : getChatHistory (setChatHistory p v.messages (some A)) (some B)
        = getChatHistory p (some B) :=
      getChatHistory_setChatHistory_ne p v.messages B A hB hA
        (fun hx => hAB hx.symm)
    have hgetA : getChatHistory (setChatHistory p v.messages (some A)) (some A)
        = v.messages := by
      rw [setChatHistory_some _ _ _ hA, getChatHistory_some _ _ hA]
      simp [lookupMap_insertMap_self]
    have hV1msgs : (loadConversationHistory { v with currentFilePath := some B }
        (setChatHistory p v.messages (some A))).messages
        = getChatHistory p (some B) := by
      rw [loadConversationHistory_messages _ _ B rfl hB, hgetB]
    have hneA : (loadConversationHistory { v with currentFilePath := some B }
        (setChatHistory p v.messages (some A))).currentFilePath ≠ some A := by
      rw [loadConversationHistory_path]
      intro hx
      exact hAB (Option.some.inj hx).symm
    have hstep2 := onActiveFileChanged_ne
      (loadConversationHistory { v with currentFilePath := some B }
        (setChatHistory p v.messages (some A)))
      (setChatHistory p v.messages (some A)) A hA hneA
    refine ⟨?_, ?_, ?_⟩
    · rw [hstep1]
      simp only
      rw [hstep2]
      simp only
      rw [loadConversationHistory_messages _ _ A rfl hA]
      have hgoal : ∀ c : Bool,
          getChatHistory (if c then setChatHistory (setChatHistory p v.messages (some A))
            (loadConversationHistory { v with currentFilePath := some B }
              (setChatHistory p v.messages (some A))).messages
            (loadConversationHistory { v with currentFilePath := some B }
              (setChatHistory p v.messages (some A))).currentFilePath
            else setChatHistory p v.messages (some A)) (some A) = v.messages := by
        intro c
        cases c
        · simpa using hgetA
        · rw [if_pos rfl, loadConversationHistory_path]
          show getChatHistory (setChatHistory (setChatHistory p v.messages (some A))
            _ (some B)) (some A) = v.messages
          rw [getChatHistory_setChatHistory_ne _ _ A B hA hB hAB, hgetA]
      exact hgoal _
    · rw [hstep1]
      simpa using hV1msgs
    · rw [hstep1]
      simpa using hgetB

/-- Witness for C6 at concrete documents "a.md" and "b.md". -/
theorem c6_switch_round_trip_witness :
    (onActiveFileChanged (onActiveFileChanged sampleViewA samplePlugin (some "b.md")).1
        (onActiveFileChanged sampleViewA samplePlugin (some "b.md")).2
        (some "a.md")).1.messages = sampleViewA.messages
    ∧ (onActiveFileChanged sampleViewA samplePlugin (some "b.md")).1.messages
      = getChatHistory samplePlugin (some "b.md")
    ∧ getChatHistory (onActiveFileChanged sampleViewA samplePlugin (some "b.md")).2
        (some "b.md")
      = getChatHistory samplePlugin (some "b.md") :=
  c6_switch_round_trip sampleViewA samplePlugin "a.md" "b.md" (by decide) (by decide)
    (by decide) rfl (by decide)

end OllamaPlugin
